import Mathlib

/-!
Verification of the conversational memory / context-assembly subsystem of the
AI-Desktop-Pet repository.  Python strings are modelled as `List Char`,
Python dicts as insertion-ordered association lists, and the stateful
methods as explicit state-passing functions.  Each definition is a direct
transcription of the corresponding Python function.
-/

namespace DesktopPet

/-- Python string, modelled as a list of characters. -/
abbrev Str := List Char

/-- Characters treated as whitespace by Python's `str.split()` / `str.strip()`
(ASCII whitespace set). -/
def isPySpace (c : Char) : Bool :=
  c = ' ' ∨ c = '\t' ∨ c = '\n' ∨ c = '\r' ∨ c = '\x0b' ∨ c = '\x0c'

/-- `str.lower()` (per-character lowering; non-cased characters unchanged). -/
def lowerStr (s : Str) : Str := s.map Char.toLower

/-- `len(s.split())`: number of maximal whitespace-free runs. -/
def wordCount (s : Str) : Nat :=
  ((s.splitOnP isPySpace).filter (fun w => ¬ w.isEmpty)).length

/-- Python `needle in hay` on strings: substring containment. -/
def containsSub (needle hay : Str) : Bool :=
  hay.tails.any (fun t => needle.isPrefixOf t)

/-- Bridge between the executable substring test and `List.IsInfix`. -/
theorem containsSub_iff (needle hay : Str) :
    containsSub needle hay = true ↔ needle <:+: hay := by
  unfold containsSub
  rw [List.any_eq_true]
  constructor
  · rintro ⟨t, ht, hpre⟩
    rw [List.mem_tails] at ht
    exact List.IsInfix.trans
      (List.isPrefixOf_iff_prefix.mp hpre).isInfix ht.isInfix
  · rintro ⟨pre, post, rfl⟩
    refine ⟨needle ++ post, ?_, ?_⟩
    · rw [List.mem_tails]
      exact ⟨pre, by simp⟩
    · exact List.isPrefixOf_iff_prefix.mpr ⟨post, rfl⟩

/-- `sep.join(xs)` for Python lists of strings. -/
def joinSep (sep : Str) : List Str → Str
  | [] => []
  | [x] => x
  | x :: y :: xs => x ++ sep ++ joinSep sep (y :: xs)

theorem joinSep_cons_eq_append (sep x : Str) (xs : List Str) :
    ∃ t, joinSep sep (x :: xs) = x ++ t := by
  cases xs with
  | nil => exact ⟨[], by simp [joinSep]⟩
  | cons y ys => exact ⟨sep ++ joinSep sep (y :: ys), by simp [joinSep]⟩

/-- The tail `n` elements of a list (`xs[-n:]` for nonempty slices):
`drop (length - n)`, which is the whole list when `length ≤ n`. -/
def lastN (n : Nat) (xs : List α) : List α := xs.drop (xs.length - n)

theorem lastN_of_le (n : Nat) (xs : List α) (h : xs.length ≤ n) :
    lastN n xs = xs := by
  unfold lastN
  rw [Nat.sub_eq_zero_of_le h, List.drop_zero]

theorem length_lastN_le (n : Nat) (xs : List α) : (lastN n xs).length ≤ n := by
  unfold lastN
  rw [List.length_drop]
  omega

/-! ## Update-cadence policy
Transcribed from `ProfileManager.should_update_profile`
(src/domain/profile/profile_manager.py). -/

/-- `should_update_profile`, as a function of the profile's
`conversation_count`. -/
def should_update_profile (count : Int) : Bool :=
  if count ≤ 0 then
    false
  else if count ≤ 20 then
    count % 5 == 0
  else if count ≤ 50 then
    count % 10 == 0
  else
    count % 15 == 0

/-- C1 counterexample: the claim asserts `should_update_profile` is true at
count 65, but 65 % 15 = 5, so the code returns false there (likewise at 80). -/
theorem should_update_profile_false_at_65 :
    should_update_profile 65 = false ∧ should_update_profile 80 = false := by
  decide

/-- C1 (amended): `should_update_profile` follows the piecewise modulo
schedule (count ≤ 0 never; 1–20 when count % 5 == 0; 21–50 when
count % 10 == 0; above 50 when count % 15 == 0); in particular it is true at
every count in {5,10,15,20,30,40,50} and false at every count in
{1,2,3,4,21,55,65,80}. -/
theorem should_update_profile_schedule (count : Int) :
    (count ≤ 0 → should_update_profile count = false) ∧
    (0 < count → count ≤ 20 →
      (should_update_profile count = true ↔ count % 5 = 0)) ∧
    (20 < count → count ≤ 50 →
      (should_update_profile count = true ↔ count % 10 = 0)) ∧
    (50 < count → (should_update_profile count = true ↔ count % 15 = 0)) ∧
    ((∀ c ∈ ([5, 10, 15, 20, 30, 40, 50] : List Int),
        should_update_profile c = true) ∧
      ∀ c ∈ ([1, 2, 3, 4, 21, 55, 65, 80] : List Int),
        should_update_profile c = false) := by
  refine ⟨?_, ?_, ?_, ?_, by decide⟩
  · intro h
    simp [should_update_profile, h]
  · intro h1 h2
    simp only [should_update_profile, if_neg (by omega : ¬ count ≤ 0),
      if_pos h2, beq_iff_eq]
  · intro h1 h2
    simp only [should_update_profile, if_neg (by omega : ¬ count ≤ 0),
      if_neg (by omega : ¬ count ≤ 20), if_pos h2, beq_iff_eq]
  · intro h1
    simp only [should_update_profile, if_neg (by omega : ¬ count ≤ 0),
      if_neg (by omega : ¬ count ≤ 20), if_neg (by omega : ¬ count ≤ 50),
      beq_iff_eq]

/-- Witness for C1's schedule theorem at concrete counts. -/
theorem should_update_profile_schedule_witness :
    should_update_profile 30 = true ∧ should_update_profile 61 = false := by
  constructor
  · exact ((should_update_profile_schedule 30).2.2.1 (by decide)
      (by decide)).mpr (by decide)
  · have h := ((should_update_profile_schedule 61).2.2.2.1 (by decide))
    cases hb : should_update_profile 61 with
    | false => rfl
    | true => exact absurd (h.mp hb) (by decide)

/-! ## History windowing
Transcribed from `get_relevant_history` (src/api/server.py; the copies in
backend/app/main.py and src/main.py are textually identical logic). -/

/-- The multilingual greeting word list of the source. -/
def greetingWords : List Str :=
  ["hello".toList, "hi".toList, "你好".toList, "嗨".toList, "hey".toList]

/-- `is_greeting`: any greeting word occurs as a substring of the lowercased
message. -/
def isGreeting (message : Str) : Bool :=
  greetingWords.any (fun w => containsSub w (lowerStr message))

/-- `is_question`: the message contains `?` (ASCII) or `？` (full-width). -/
def isQuestion (message : Str) : Bool :=
  containsSub ['?'] message ∨ containsSub ['？'] message

/-- `get_relevant_history(history, current_message)`: select a bounded slice
of recent turns.  The history entries are opaque to the function. -/
def get_relevant_history (history : List α) (current_message : Str) :
    List α :=
  let is_greeting := isGreeting current_message
  let is_simple := decide (wordCount current_message < 10)
  let is_question := isQuestion current_message
  if (is_greeting || (is_simple && ! is_question)) = true then
    if history.length > 3 then history.drop (history.length - 3) else history
  else if wordCount current_message < 30 then
    if history.length > 8 then history.drop (history.length - 8) else history
  else
    if history.length > 15 then history.drop (history.length - 15)
    else history

/-- The window bound selected by `get_relevant_history`'s classification. -/
def windowBound (current_message : Str) : Nat :=
  if (isGreeting current_message ||
      (decide (wordCount current_message < 10) &&
        ! isQuestion current_message)) = true then 3
  else if wordCount current_message < 30 then 8
  else 15

theorem get_relevant_history_eq_lastN (history : List α)
    (current_message : Str) :
    get_relevant_history history current_message =
      lastN (windowBound current_message) history := by
  simp only [get_relevant_history, windowBound, lastN]
  by_cases hg : (isGreeting current_message ||
      (decide (wordCount current_message < 10) &&
        ! isQuestion current_message)) = true
  · rw [if_pos hg, if_pos hg]
    by_cases hl : history.length > 3
    · rw [if_pos hl]
    · rw [if_neg hl, Nat.sub_eq_zero_of_le (by omega), List.drop_zero]
  · rw [if_neg hg, if_neg hg]
    by_cases hw : wordCount current_message < 30
    · rw [if_pos hw, if_pos hw]
      by_cases hl : history.length > 8
      · rw [if_pos hl]
      · rw [if_neg hl, Nat.sub_eq_zero_of_le (by omega), List.drop_zero]
    · rw [if_neg hw, if_neg hw]
      by_cases hl : history.length > 15
      · rw [if_pos hl]
      · rw [if_neg hl, Nat.sub_eq_zero_of_le (by omega), List.drop_zero]

theorem windowBound_cases (m : Str) :
    windowBound m = 3 ∨ windowBound m = 8 ∨ windowBound m = 15 := by
  unfold windowBound
  split
  · exact Or.inl rfl
  · split
    · exact Or.inr (Or.inl rfl)
    · exact Or.inr (Or.inr rfl)

theorem three_le_windowBound (m : Str) : 3 ≤ windowBound m := by
  rcases windowBound_cases m with h | h | h <;> omega

theorem windowCondition_iff (m : Str) :
    (isGreeting m ||
      (decide (wordCount m < 10) && ! isQuestion m)) = true ↔
    (isGreeting m = true ∨ (wordCount m < 10 ∧ isQuestion m = false)) := by
  simp [Bool.or_eq_true, Bool.and_eq_true, Bool.not_eq_true']

/-- `isGreeting` unfolded to substring containment. -/
theorem isGreeting_iff (m : Str) :
    isGreeting m = true ↔ ∃ w ∈ greetingWords, w <:+: lowerStr m := by
  unfold isGreeting
  rw [List.any_eq_true]
  constructor
  · rintro ⟨w, hw, hc⟩
    exact ⟨w, hw, (containsSub_iff w (lowerStr m)).mp hc⟩
  · rintro ⟨w, hw, hc⟩
    exact ⟨w, hw, (containsSub_iff w (lowerStr m)).mpr hc⟩

/-- C3: history selection returns the last 3 turns (or the whole history if
shorter) when the message is a greeting or is short (< 10 words) and not a
question; else the last 8 turns when the word count is below 30; else the
last 15 turns.  For every history of length at most 3 it returns the entire
history unchanged. -/
theorem history_windowing_schedule (history : List α) (m : Str) :
    (history.length ≤ 3 → get_relevant_history history m = history) ∧
    (isGreeting m = true ∨ (wordCount m < 10 ∧ isQuestion m = false) →
      get_relevant_history history m = lastN 3 history) ∧
    (¬ (isGreeting m = true ∨ (wordCount m < 10 ∧ isQuestion m = false)) →
      wordCount m < 30 → get_relevant_history history m = lastN 8 history) ∧
    (¬ (isGreeting m = true ∨ (wordCount m < 10 ∧ isQuestion m = false)) →
      30 ≤ wordCount m → get_relevant_history history m = lastN 15 history)
    := by
  refine ⟨?_, ?_, ?_, ?_⟩
  · intro hlen
    rw [get_relevant_history_eq_lastN]
    exact lastN_of_le _ _ (le_trans hlen (three_le_windowBound m))
  · intro hc
    rw [get_relevant_history_eq_lastN]
    have : windowBound m = 3 := by
      unfold windowBound
      rw [if_pos ((windowCondition_iff m).mpr hc)]
    rw [this]
  · intro hc hw
    rw [get_relevant_history_eq_lastN]
    have : windowBound m = 8 := by
      unfold windowBound
      rw [if_neg (fun h => hc ((windowCondition_iff m).mp h)), if_pos hw]
    rw [this]
  · intro hc hw
    rw [get_relevant_history_eq_lastN]
    have : windowBound m = 15 := by
      unfold windowBound
      rw [if_neg (fun h => hc ((windowCondition_iff m).mp h)),
        if_neg (by omega)]
    rw [this]

/-- Witness for C3 at a concrete history and message. -/
theorem history_windowing_schedule_witness :
    get_relevant_history [1, 2] "hey".toList = [1, 2] :=
  (history_windowing_schedule [1, 2] "hey".toList).1 (by decide)

/-- C10: greeting classification is by substring containment — any message
whose lowercased text contains a greeting word anywhere as a substring is
classified as a greeting, and selection returns at most the last 3 turns,
regardless of word count and question marks. -/
theorem greeting_substring_selects_last3 (history : List α) (m : Str)
    (h : ∃ w ∈ greetingWords, w <:+: lowerStr m) :
    isGreeting m = true ∧
    get_relevant_history history m = lastN 3 history ∧
    (get_relevant_history history m).length ≤ 3 := by
  have hg : isGreeting m = true := (isGreeting_iff m).mpr h
  have heq : get_relevant_history history m = lastN 3 history := by
    rw [get_relevant_history_eq_lastN]
    have : windowBound m = 3 := by
      unfold windowBound
      rw [if_pos ((windowCondition_iff m).mpr (Or.inl hg))]
    rw [this]
  exact ⟨hg, heq, heq ▸ length_lastN_le 3 history⟩

/-- Witness for C10: a 33-word question containing "this" (and hence the
substring "hi") still selects only the last 3 turns. -/
theorem greeting_substring_selects_last3_witness :
    get_relevant_history [1, 2, 3, 4, 5]
        ("I would like to discuss this matter in greater depth because there are quite a few subtle points that deserve a careful and thorough review before we can settle on the final design direction ?".toList) =
      [3, 4, 5] :=
  (greeting_substring_selects_last3 [1, 2, 3, 4, 5] _
    ⟨"hi".toList, by decide, by decide⟩).2.1.trans (by decide)

/-! ## User profile and merge operation
Transcribed from `UserProfile` and `ProfileManager.update_profile_from_ai`
(src/domain/profile/profile_manager.py).  Python dicts are modelled as
insertion-ordered association lists; the dict's key-uniqueness appears as
`Nodup` hypotheses on the key lists where a theorem depends on it. -/

structure UserProfile where
  name : Str
  personality_traits : List Str
  preferences : List (Str × Str)
  goals : List Str
  important_dates : List (Str × Str)
  facts : List Str
  conversation_count : Int
  last_updated : Str
  created_at : Str
deriving DecidableEq

structure ExtractionResult where
  name : Str
  personality_traits : List Str
  preferences : List (Str × Str)
  goals : List Str
  important_dates : List (Str × Str)
  facts : List Str
deriving DecidableEq

/-- The `for item in new: if item and item not in cur: cur.append(item)`
loop used for traits, goals and facts.  Returns the new list and whether
anything was appended. -/
def addItems : List Str → List Str → List Str × Bool
  | cur, [] => (cur, false)
  | cur, t :: ts =>
    if t ≠ [] ∧ t ∉ cur then ((addItems (cur ++ [t]) ts).1, true)
    else addItems cur ts

/-- Dict lookup: value of the first pair with the given key. -/
def lookupA (m : List (Str × Str)) (k : Str) : Option Str :=
  (m.find? (fun q => q.1 == k)).map Prod.snd

/-- Dict key-membership test. -/
def hasKey (m : List (Str × Str)) (k : Str) : Bool :=
  m.any (fun q => q.1 == k)

/-- Python dict assignment `m[k] = v`: update in place when the key exists
(keeping its position), else append. -/
def setKey (m : List (Str × Str)) (k v : Str) : List (Str × Str) :=
  if hasKey m k then m.map (fun q => if q.1 == k then (k, v) else q)
  else m ++ [(k, v)]

/-- The `for key, value in new.items(): if key and value: if key not in cur
or cur[key] != value: cur[key] = value` loop used for preferences and
important dates. -/
def addEntries : List (Str × Str) → List (Str × Str) →
    List (Str × Str) × Bool
  | cur, [] => (cur, false)
  | cur, (k, v) :: rest =>
    if k ≠ [] ∧ v ≠ [] ∧ lookupA cur k ≠ some v then
      ((addEntries (setKey cur k v) rest).1, true)
    else addEntries cur rest

/-- The name rule: set only if the extracted name is truthy and the profile
name is currently unset. -/
def mergeName (pname ename : Str) : Str × Bool :=
  if ename ≠ [] ∧ pname = [] then (ename, true) else (pname, false)

/-- Outcome of one `update_profile_from_ai` call: the new profile state,
the internal `updated` flag, whether `save_profile` was invoked, and the
method's Python return value. -/
structure MergeOutcome where
  profile : UserProfile
  updated : Bool
  saved : Bool
  ret : Option Bool
deriving DecidableEq

/-- `ProfileManager.update_profile_from_ai`, with the wall-clock time that
`save_profile` would stamp into `last_updated` passed explicitly.  The
Python method has no `return` statement, hence `ret := none`. -/
def update_profile_from_ai (now : Str) (p : UserProfile)
    (e : ExtractionResult) : MergeOutcome :=
  let na := mergeName p.name e.name
  let tr := addItems p.personality_traits e.personality_traits
  let pr := addEntries p.preferences e.preferences
  let go := addItems p.goals e.goals
  let da := addEntries p.important_dates e.important_dates
  let fa := addItems p.facts e.facts
  let updated := na.2 || tr.2 || pr.2 || go.2 || da.2 || fa.2
  { profile :=
      { name := na.1
        personality_traits := tr.1
        preferences := pr.1
        goals := go.1
        important_dates := da.1
        facts := fa.1
        conversation_count := p.conversation_count
        last_updated := if updated then now else p.last_updated
        created_at := p.created_at }
    updated := updated
    saved := updated
    ret := none }

/-! ### Lemmas about `addItems` -/

theorem addItems_snd_false {cur new : List Str}
    (h : (addItems cur new).2 = false) : (addItems cur new).1 = cur := by
  induction new generalizing cur with
  | nil => rfl
  | cons t ts ih =>
    by_cases hc : t ≠ [] ∧ t ∉ cur
    · rw [addItems, if_pos hc] at h
      exact absurd h (by simp)
    · rw [addItems, if_neg hc] at h ⊢
      exact ih h

theorem addItems_length_le (cur new : List Str) :
    cur.length ≤ (addItems cur new).1.length := by
  induction new generalizing cur with
  | nil => exact le_refl _
  | cons t ts ih =>
    by_cases hc : t ≠ [] ∧ t ∉ cur
    · rw [addItems, if_pos hc]
      calc cur.length ≤ (cur ++ [t]).length := by simp
        _ ≤ _ := ih (cur ++ [t])
    · rw [addItems, if_neg hc]
      exact ih cur

theorem addItems_snd_true {cur new : List Str}
    (h : (addItems cur new).2 = true) :
    cur.length < (addItems cur new).1.length := by
  induction new generalizing cur with
  | nil => exact absurd h (by simp [addItems])
  | cons t ts ih =>
    by_cases hc : t ≠ [] ∧ t ∉ cur
    · rw [addItems, if_pos hc]
      calc cur.length < (cur ++ [t]).length := by simp
        _ ≤ _ := addItems_length_le (cur ++ [t]) ts
    · rw [addItems, if_neg hc] at h ⊢
      exact ih h

theorem addItems_mem_mono {cur new : List Str} {x : Str} (hx : x ∈ cur) :
    x ∈ (addItems cur new).1 := by
  induction new generalizing cur with
  | nil => exact hx
  | cons t ts ih =>
    by_cases hc : t ≠ [] ∧ t ∉ cur
    · rw [addItems, if_pos hc]
      exact ih (by simp [hx])
    · rw [addItems, if_neg hc]
      exact ih hx

theorem addItems_mem_new {cur new : List Str} {t : Str} (ht : t ∈ new)
    (hne : t ≠ []) : t ∈ (addItems cur new).1 := by
  induction new generalizing cur with
  | nil => cases ht
  | cons u us ih =>
    by_cases hc : u ≠ [] ∧ u ∉ cur
    · rw [addItems, if_pos hc]
      rcases List.mem_cons.mp ht with rfl | hmem
      · exact addItems_mem_mono (by simp)
      · exact ih hmem
    · rw [addItems, if_neg hc]
      rcases List.mem_cons.mp ht with rfl | hmem
      · rcases Classical.em (t ∈ cur) with hin | hout
        · exact addItems_mem_mono hin
        · exact absurd ⟨hne, hout⟩ hc
      · exact ih hmem

theorem addItems_noop {cur new : List Str}
    (h : ∀ t ∈ new, t ≠ [] → t ∈ cur) : addItems cur new = (cur, false) := by
  induction new with
  | nil => rfl
  | cons t ts ih =>
    rw [addItems, if_neg ?_]
    · exact ih (fun u hu => h u (by simp [hu]))
    · rintro ⟨hne, hnotin⟩
      exact hnotin (h t (by simp) hne)

theorem addItems_nodup {cur new : List Str} (h : cur.Nodup) :
    (addItems cur new).1.Nodup := by
  induction new generalizing cur with
  | nil => exact h
  | cons t ts ih =>
    by_cases hc : t ≠ [] ∧ t ∉ cur
    · rw [addItems, if_pos hc]
      exact ih ((List.nodup_append_comm.mpr (by simpa using ⟨hc.2, h⟩)))
    · rw [addItems, if_neg hc]
      exact ih h

/-! ### Lemmas about `setKey` / `addEntries` -/

theorem find_mapSet_self (m : List (Str × Str)) (k v : Str)
    (h : hasKey m k = true) :
    List.find? (fun q => q.1 == k)
        (m.map (fun q => if q.1 == k then (k, v) else q)) = some (k, v) := by
  induction m with
  | nil => simp [hasKey] at h
  | cons a as ih =>
    by_cases ha : (a.1 == k) = true
    · rw [List.map_cons, if_pos ha,
        List.find?_cons_of_pos _ (by simp)]
    · rw [List.map_cons, if_neg ha,
        List.find?_cons_of_neg _ (by simpa using ha)]
      apply ih
      have := h
      simp only [hasKey, List.any_cons, Bool.or_eq_true] at this
      rcases this with hh | hh
      · exact absurd hh ha
      · exact hh

theorem find_mapSet_other (m : List (Str × Str)) (k v k' : Str)
    (hne : k' ≠ k) :
    List.find? (fun q => q.1 == k')
        (m.map (fun q => if q.1 == k then (k, v) else q)) =
      List.find? (fun q => q.1 == k') m := by
  induction m with
  | nil => rfl
  | cons a as ih =>
    by_cases ha : (a.1 == k) = true
    · have ha' : a.1 = k := by simpa using ha
      rw [List.map_cons, if_pos ha,
        List.find?_cons_of_neg (p := fun (q : Str × Str) => q.1 == k') _
          (by simp [Ne.symm hne]),
        List.find?_cons_of_neg (p := fun (q : Str × Str) => q.1 == k') _
          (by simp [ha', Ne.symm hne])]
      exact ih
    · rw [List.map_cons, if_neg ha]
      by_cases hk' : (a.1 == k') = true
      · rw [List.find?_cons_of_pos (p := fun (q : Str × Str) => q.1 == k') _ hk',
          List.find?_cons_of_pos (p := fun (q : Str × Str) => q.1 == k') _ hk']
      · rw [List.find?_cons_of_neg (p := fun (q : Str × Str) => q.1 == k') _ hk',
          List.find?_cons_of_neg (p := fun (q : Str × Str) => q.1 == k') _ hk']
        exact ih

theorem find_append_single (m : List (Str × Str)) (k v : Str)
    (h : hasKey m k = false) :
    List.find? (fun q => q.1 == k) (m ++ [(k, v)]) = some (k, v) := by
  induction m with
  | nil => simp
  | cons a as ih =>
    simp only [hasKey, List.any_cons, Bool.or_eq_false_iff] at h
    rw [List.cons_append, List.find?_cons_of_neg _ (by simp [h.1])]
    exact ih (by simp [hasKey, h.2])

theorem find_append_single_other (m : List (Str × Str)) (k v k' : Str)
    (hne : k' ≠ k) :
    List.find? (fun q => q.1 == k') (m ++ [(k, v)]) =
      List.find? (fun q => q.1 == k') m := by
  induction m with
  | nil => simp [Ne.symm hne]
  | cons a as ih =>
    by_cases hk' : (a.1 == k') = true
    · rw [List.cons_append, List.find?_cons_of_pos (p := fun (q : Str × Str) => q.1 == k') _ hk',
        List.find?_cons_of_pos (p := fun (q : Str × Str) => q.1 == k') _ hk']
    · rw [List.cons_append, List.find?_cons_of_neg (p := fun (q : Str × Str) => q.1 == k') _ hk',
        List.find?_cons_of_neg (p := fun (q : Str × Str) => q.1 == k') _ hk']
      exact ih

theorem lookupA_setKey_self (m : List (Str × Str)) (k v : Str) :
    lookupA (setKey m k v) k = some v := by
  unfold setKey lookupA
  by_cases h : hasKey m k = true
  · rw [if_pos h, find_mapSet_self m k v h]
    rfl
  · rw [if_neg h, find_append_single m k v (by simpa using h)]
    rfl

theorem lookupA_setKey_other (m : List (Str × Str)) (k v k' : Str)
    (hne : k' ≠ k) : lookupA (setKey m k v) k' = lookupA m k' := by
  unfold setKey lookupA
  by_cases h : hasKey m k = true
  · rw [if_pos h, find_mapSet_other m k v k' hne]
  · rw [if_neg h, find_append_single_other m k v k' hne]

theorem keys_setKey (m : List (Str × Str)) (k v : Str)
    (h : (m.map Prod.fst).Nodup) :
    ((setKey m k v).map Prod.fst).Nodup := by
  unfold setKey
  by_cases hk : hasKey m k = true
  · rw [if_pos hk]
    have : (m.map (fun q => if q.1 == k then (k, v) else q)).map Prod.fst =
        m.map Prod.fst := by
      rw [List.map_map]
      apply List.map_congr_left
      intro q _
      by_cases hq : (q.1 == k) = true
      · have hq' : q.1 = k := by simpa using hq
        simp [hq, hq']
      · simp only [Function.comp_apply, if_neg hq]
    rw [this]
    exact h
  · rw [if_neg hk]
    rw [List.map_append]
    rw [List.nodup_append_comm]
    simp only [List.map_cons, List.map_nil, List.singleton_append,
      List.nodup_cons]
    refine ⟨?_, h⟩
    intro hmem
    apply hk
    unfold hasKey
    rw [List.any_eq_true]
    obtain ⟨q, hq, hqk⟩ := List.mem_map.mp hmem
    exact ⟨q, hq, by simp [hqk]⟩

theorem addEntries_snd_false {cur new : List (Str × Str)}
    (h : (addEntries cur new).2 = false) : (addEntries cur new).1 = cur := by
  induction new generalizing cur with
  | nil => rfl
  | cons q rest ih =>
    obtain ⟨k, v⟩ := q
    by_cases hc : k ≠ [] ∧ v ≠ [] ∧ lookupA cur k ≠ some v
    · rw [addEntries, if_pos hc] at h
      exact absurd h (by simp)
    · rw [addEntries, if_neg hc] at h ⊢
      exact ih h

theorem addEntries_lookup_preserve {cur new : List (Str × Str)} {k : Str}
    (h : ∀ q ∈ new, q.1 ≠ k) :
    lookupA (addEntries cur new).1 k = lookupA cur k := by
  induction new generalizing cur with
  | nil => rfl
  | cons q rest ih =>
    obtain ⟨k', v⟩ := q
    have hk' : k' ≠ k := h (k', v) (by simp)
    by_cases hc : k' ≠ [] ∧ v ≠ [] ∧ lookupA cur k' ≠ some v
    · rw [addEntries, if_pos hc]
      rw [ih (fun q hq => h q (by simp [hq]))]
      exact lookupA_setKey_other cur k' v k (fun hh => hk' hh.symm)
    · rw [addEntries, if_neg hc]
      exact ih (fun q hq => h q (by simp [hq]))

theorem addEntries_lookup_new {cur new : List (Str × Str)}
    (hnd : (new.map Prod.fst).Nodup) :
    ∀ q ∈ new, q.1 ≠ [] → q.2 ≠ [] →
      lookupA (addEntries cur new).1 q.1 = some q.2 := by
  induction new generalizing cur with
  | nil => intro q hq; cases hq
  | cons q0 rest ih =>
    obtain ⟨k, v⟩ := q0
    simp only [List.map_cons, List.nodup_cons] at hnd
    obtain ⟨hknotin, hndrest⟩ := hnd
    have hknot : ∀ q ∈ rest, q.1 ≠ k := by
      intro q hq hkeq
      exact hknotin (List.mem_map.mpr ⟨q, hq, hkeq⟩)
    intro q hq hk1 hk2
    rcases List.mem_cons.mp hq with rfl | hmem
    · by_cases hc : k ≠ [] ∧ v ≠ [] ∧ lookupA cur k ≠ some v
      · rw [addEntries, if_pos hc]
        rw [addEntries_lookup_preserve hknot]
        exact lookupA_setKey_self cur k v
      · rw [addEntries, if_neg hc]
        rw [addEntries_lookup_preserve hknot]
        rcases Classical.em (lookupA cur k = some v) with he | hne
        · exact he
        · exact absurd ⟨hk1, hk2, hne⟩ hc
    · by_cases hc : k ≠ [] ∧ v ≠ [] ∧ lookupA cur k ≠ some v
      · rw [addEntries, if_pos hc]
        exact ih hndrest q hmem hk1 hk2
      · rw [addEntries, if_neg hc]
        exact ih hndrest q hmem hk1 hk2

theorem addEntries_noop {cur new : List (Str × Str)}
    (h : ∀ q ∈ new, q.1 ≠ [] → q.2 ≠ [] → lookupA cur q.1 = some q.2) :
    addEntries cur new = (cur, false) := by
  induction new with
  | nil => rfl
  | cons q0 rest ih =>
    obtain ⟨k, v⟩ := q0
    rw [addEntries, if_neg ?_]
    · exact ih (fun q hq => h q (by simp [hq]))
    · rintro ⟨h1, h2, h3⟩
      exact h3 (h (k, v) (by simp) h1 h2)

theorem addEntries_snd_true {cur new : List (Str × Str)}
    (hnd : (new.map Prod.fst).Nodup)
    (h : (addEntries cur new).2 = true) : (addEntries cur new).1 ≠ cur := by
  induction new generalizing cur with
  | nil => exact absurd h (by simp [addEntries])
  | cons q0 rest ih =>
    obtain ⟨k, v⟩ := q0
    simp only [List.map_cons, List.nodup_cons] at hnd
    obtain ⟨hknotin, hndrest⟩ := hnd
    have hknot : ∀ q ∈ rest, q.1 ≠ k := by
      intro q hq hkeq
      exact hknotin (List.mem_map.mpr ⟨q, hq, hkeq⟩)
    by_cases hc : k ≠ [] ∧ v ≠ [] ∧ lookupA cur k ≠ some v
    · rw [addEntries, if_pos hc]
      intro heq
      apply hc.2.2
      calc lookupA cur k = lookupA (addEntries (setKey cur k v) rest).1 k :=
            by rw [heq]
        _ = lookupA (setKey cur k v) k := addEntries_lookup_preserve hknot
        _ = some v := lookupA_setKey_self cur k v
    · rw [addEntries, if_neg hc] at h ⊢
      exact ih hndrest h

theorem addEntries_keys_nodup {cur new : List (Str × Str)}
    (h : (cur.map Prod.fst).Nodup) :
    (((addEntries cur new).1).map Prod.fst).Nodup := by
  induction new generalizing cur with
  | nil => exact h
  | cons q0 rest ih =>
    obtain ⟨k, v⟩ := q0
    by_cases hc : k ≠ [] ∧ v ≠ [] ∧ lookupA cur k ≠ some v
    · rw [addEntries, if_pos hc]
      exact ih (keys_setKey cur k v h)
    · rw [addEntries, if_neg hc]
      exact ih h

/-! ### The merge operation's behaviour (C2, C5, C8) -/

theorem mergeName_snd_false {a b : Str} (h : (mergeName a b).2 = false) :
    (mergeName a b).1 = a := by
  unfold mergeName at *
  by_cases hc : b ≠ [] ∧ a = []
  · rw [if_pos hc] at h
    exact absurd h (by simp)
  · rw [if_neg hc]

theorem mergeName_snd_true {a b : Str} (h : (mergeName a b).2 = true) :
    (mergeName a b).1 ≠ a := by
  unfold mergeName at *
  by_cases hc : b ≠ [] ∧ a = []
  · rw [if_pos hc]
    rw [hc.2]
    exact hc.1
  · rw [if_neg hc] at h
    exact absurd h (by simp)

theorem mergeName_idem (a b : Str) :
    mergeName (mergeName a b).1 b = ((mergeName a b).1, false) := by
  unfold mergeName
  by_cases hc : b ≠ [] ∧ a = []
  · rw [if_pos hc, if_neg (by simp [hc.1])]
  · rw [if_neg hc, if_neg hc]

/-- One-step unfolding of `update_profile_from_ai` into its field
computations. -/
theorem update_profile_from_ai_eq (now : Str) (p : UserProfile)
    (e : ExtractionResult) :
    update_profile_from_ai now p e =
      { profile :=
          { name := (mergeName p.name e.name).1
            personality_traits :=
              (addItems p.personality_traits e.personality_traits).1
            preferences := (addEntries p.preferences e.preferences).1
            goals := (addItems p.goals e.goals).1
            important_dates :=
              (addEntries p.important_dates e.important_dates).1
            facts := (addItems p.facts e.facts).1
            conversation_count := p.conversation_count
            last_updated :=
              if ((mergeName p.name e.name).2 ||
                  (addItems p.personality_traits e.personality_traits).2 ||
                  (addEntries p.preferences e.preferences).2 ||
                  (addItems p.goals e.goals).2 ||
                  (addEntries p.important_dates e.important_dates).2 ||
                  (addItems p.facts e.facts).2) then now
              else p.last_updated
            created_at := p.created_at }
        updated := ((mergeName p.name e.name).2 ||
          (addItems p.personality_traits e.personality_traits).2 ||
          (addEntries p.preferences e.preferences).2 ||
          (addItems p.goals e.goals).2 ||
          (addEntries p.important_dates e.important_dates).2 ||
          (addItems p.facts e.facts).2)
        saved := ((mergeName p.name e.name).2 ||
          (addItems p.personality_traits e.personality_traits).2 ||
          (addEntries p.preferences e.preferences).2 ||
          (addItems p.goals e.goals).2 ||
          (addEntries p.important_dates e.important_dates).2 ||
          (addItems p.facts e.facts).2)
        ret := none } := rfl

/-- The profile whose fields are all unset, as built by `UserProfile()`
(timestamps abstracted to the empty string). -/
def emptyProfile : UserProfile :=
  { name := []
    personality_traits := []
    preferences := []
    goals := []
    important_dates := []
    facts := []
    conversation_count := 0
    last_updated := []
    created_at := [] }

/-- C2 counterexample: `update_profile_from_ai` has no `return` statement,
so its Python return value is `None` even when fields did change — it does
not return the boolean "did anything change". -/
theorem update_profile_from_ai_returns_none :
    (update_profile_from_ai "2024".toList emptyProfile
        { name := "Alex".toList
          personality_traits := []
          preferences := []
          goals := ["learn guitar".toList]
          important_dates := []
          facts := [] }).ret = none ∧
    (update_profile_from_ai "2024".toList emptyProfile
        { name := "Alex".toList
          personality_traits := []
          preferences := []
          goals := ["learn guitar".toList]
          important_dates := []
          facts := [] }).profile.name = "Alex".toList := by
  constructor
  · rfl
  · decide

/-- C2 (amended): `update_profile_from_ai` computes an internal `updated`
flag that is true exactly when some profile field changed; when it is true,
`last_updated` is refreshed and the profile is persisted immediately, and
when it is false no persistence write occurs and the profile is untouched.
The method itself returns `None` rather than that flag.  The `Nodup`
hypotheses state that the extraction's dictionaries have unique keys, as
Python dicts do. -/
theorem merge_updated_iff_changed (now : Str) (p : UserProfile)
    (e : ExtractionResult)
    (h1 : (e.preferences.map Prod.fst).Nodup)
    (h2 : (e.important_dates.map Prod.fst).Nodup) :
    ((update_profile_from_ai now p e).updated = true ↔
      ¬ ((update_profile_from_ai now p e).profile.name = p.name ∧
        (update_profile_from_ai now p e).profile.personality_traits =
          p.personality_traits ∧
        (update_profile_from_ai now p e).profile.preferences =
          p.preferences ∧
        (update_profile_from_ai now p e).profile.goals = p.goals ∧
        (update_profile_from_ai now p e).profile.important_dates =
          p.important_dates ∧
        (update_profile_from_ai now p e).profile.facts = p.facts)) ∧
    (update_profile_from_ai now p e).saved =
      (update_profile_from_ai now p e).updated ∧
    ((update_profile_from_ai now p e).saved = true →
      (update_profile_from_ai now p e).profile.last_updated = now) ∧
    ((update_profile_from_ai now p e).saved = false →
      (update_profile_from_ai now p e).profile = p) ∧
    (update_profile_from_ai now p e).ret = none := by
  rw [update_profile_from_ai_eq]
  dsimp only
  refine ⟨?_, by trivial, ?_, ?_, by trivial⟩
  · constructor
    · intro hu hall
      obtain ⟨ha, hb, hc, hd, he, hf⟩ := hall
      simp only [Bool.or_eq_true] at hu
      rcases hu with ((((hx | hx) | hx) | hx) | hx) | hx
      · exact mergeName_snd_true hx ha
      · have hlt := addItems_snd_true hx
        rw [hb] at hlt
        exact absurd hlt (lt_irrefl _)
      · exact addEntries_snd_true h1 hx hc
      · have hlt := addItems_snd_true hx
        rw [hd] at hlt
        exact absurd hlt (lt_irrefl _)
      · exact addEntries_snd_true h2 hx he
      · have hlt := addItems_snd_true hx
        rw [hf] at hlt
        exact absurd hlt (lt_irrefl _)
    · intro hne
      by_contra hu
      apply hne
      simp only [Bool.or_eq_true, not_or, Bool.not_eq_true] at hu
      obtain ⟨⟨⟨⟨⟨hna, htr⟩, hpr⟩, hgo⟩, hda⟩, hfa⟩ := hu
      exact ⟨mergeName_snd_false hna, addItems_snd_false htr,
        addEntries_snd_false hpr, addItems_snd_false hgo,
        addEntries_snd_false hda, addItems_snd_false hfa⟩
  · intro hs
    simp only [hs, if_true]
  · intro hs
    simp only [Bool.or_eq_false_iff] at hs
    obtain ⟨⟨⟨⟨⟨hna, htr⟩, hpr⟩, hgo⟩, hda⟩, hfa⟩ := hs
    have e1 := mergeName_snd_false hna
    have e2 := addItems_snd_false htr
    have e3 := addEntries_snd_false hpr
    have e4 := addItems_snd_false hgo
    have e5 := addEntries_snd_false hda
    have e6 := addItems_snd_false hfa
    simp only [hna, htr, hpr, hgo, hda, hfa, e1, e2, e3, e4, e5, e6,
      Bool.or_self, Bool.false_or, if_false]
    rfl

/-- Witness for the amended C2 theorem at a concrete input. -/
theorem merge_updated_iff_changed_witness :
    (update_profile_from_ai "t".toList emptyProfile
        { name := []
          personality_traits := []
          preferences := [("music".toList, "indie rock".toList)]
          goals := []
          important_dates := []
          facts := [] }).saved =
      (update_profile_from_ai "t".toList emptyProfile
        { name := []
          personality_traits := []
          preferences := [("music".toList, "indie rock".toList)]
          goals := []
          important_dates := []
          facts := [] }).updated :=
  (merge_updated_iff_changed "t".toList emptyProfile _
    (by decide) (by decide)).2.1

/-- C5: the merge is idempotent — applying the same ExtractionResult a
second time immediately after the first leaves the whole profile (name,
traits, preferences, goals, dates, facts and timestamps) unchanged, and the
second run's `updated` flag is false. -/
theorem merge_idempotent (now now' : Str) (p : UserProfile)
    (e : ExtractionResult)
    (h1 : (e.preferences.map Prod.fst).Nodup)
    (h2 : (e.important_dates.map Prod.fst).Nodup) :
    (update_profile_from_ai now'
        (update_profile_from_ai now p e).profile e).profile =
      (update_profile_from_ai now p e).profile ∧
    (update_profile_from_ai now'
        (update_profile_from_ai now p e).profile e).updated = false := by
  have hname : mergeName (update_profile_from_ai now p e).profile.name
      e.name = ((update_profile_from_ai now p e).profile.name, false) := by
    rw [update_profile_from_ai_eq]
    exact mergeName_idem p.name e.name
  have htr : addItems
      (update_profile_from_ai now p e).profile.personality_traits
      e.personality_traits =
      ((update_profile_from_ai now p e).profile.personality_traits,
        false) := by
    rw [update_profile_from_ai_eq]
    exact addItems_noop (fun t ht hne => addItems_mem_new ht hne)
  have hpr : addEntries
      (update_profile_from_ai now p e).profile.preferences e.preferences =
      ((update_profile_from_ai now p e).profile.preferences, false) := by
    rw [update_profile_from_ai_eq]
    exact addEntries_noop (fun q hq hk hv => addEntries_lookup_new h1 q hq hk hv)
  have hgo : addItems (update_profile_from_ai now p e).profile.goals
      e.goals = ((update_profile_from_ai now p e).profile.goals, false) := by
    rw [update_profile_from_ai_eq]
    exact addItems_noop (fun t ht hne => addItems_mem_new ht hne)
  have hda : addEntries
      (update_profile_from_ai now p e).profile.important_dates
      e.important_dates =
      ((update_profile_from_ai now p e).profile.important_dates, false) := by
    rw [update_profile_from_ai_eq]
    exact addEntries_noop (fun q hq hk hv => addEntries_lookup_new h2 q hq hk hv)
  have hfa : addItems (update_profile_from_ai now p e).profile.facts
      e.facts = ((update_profile_from_ai now p e).profile.facts, false) := by
    rw [update_profile_from_ai_eq]
    exact addItems_noop (fun t ht hne => addItems_mem_new ht hne)
  constructor
  · conv_lhs => rw [update_profile_from_ai_eq]
    simp only [hname, htr, hpr, hgo, hda, hfa, Bool.or_self,
      Bool.false_eq_true, if_false]
  · conv_lhs => rw [update_profile_from_ai_eq]
    simp only [hname, htr, hpr, hgo, hda, hfa, Bool.or_self]

/-- Witness for C5 at the end-to-end scenario of the spec. -/
theorem merge_idempotent_witness :
    (update_profile_from_ai "t2".toList
        (update_profile_from_ai "t1".toList emptyProfile
          { name := "Alex".toList
            personality_traits := []
            preferences := []
            goals := ["learn guitar".toList]
            important_dates := []
            facts := [] }).profile
        { name := "Alex".toList
          personality_traits := []
          preferences := []
          goals := ["learn guitar".toList]
          important_dates := []
          facts := [] }).profile =
      (update_profile_from_ai "t1".toList emptyProfile
        { name := "Alex".toList
          personality_traits := []
          preferences := []
          goals := ["learn guitar".toList]
          important_dates := []
          facts := [] }).profile :=
  (merge_idempotent "t1".toList "t2".toList emptyProfile _
    (by decide) (by decide)).1

/-- The duplicate-free invariant of the spec's data model. -/
def ProfileInv (p : UserProfile) : Prop :=
  p.personality_traits.Nodup ∧ p.goals.Nodup ∧ p.facts.Nodup ∧
  (p.preferences.map Prod.fst).Nodup ∧
  (p.important_dates.map Prod.fst).Nodup

/-- C8: applying the merge operation to a duplicate-free profile yields a
duplicate-free profile, for every extraction (even one containing
duplicates). -/
theorem merge_preserves_invariant (now : Str) (p : UserProfile)
    (e : ExtractionResult) (h : ProfileInv p) :
    ProfileInv (update_profile_from_ai now p e).profile := by
  obtain ⟨ha, hb, hc, hd, he⟩ := h
  rw [update_profile_from_ai_eq]
  exact ⟨addItems_nodup ha, addItems_nodup hb, addItems_nodup hc,
    addEntries_keys_nodup hd, addEntries_keys_nodup he⟩

/-- Witness for C8 at a concrete profile and extraction. -/
theorem merge_preserves_invariant_witness :
    ProfileInv (update_profile_from_ai "t".toList
      { emptyProfile with
          personality_traits := ["curious".toList]
          preferences := [("music".toList, "jazz".toList)] }
      { name := []
        personality_traits := ["curious".toList, "curious".toList]
        preferences := [("music".toList, "rock".toList)]
        goals := []
        important_dates := []
        facts := [] }).profile :=
  merge_preserves_invariant "t".toList _ _
    ⟨by decide, by decide, by decide, by decide, by decide⟩

/-! ## Prompt assembly
Transcribed from `build_system_prompt` in src/api/server.py (relevance
threshold 0.7) and backend/app/main.py (threshold 0.6, plus a facts line in
the profile summary).  The external collaborators are passed as inputs: the
character configuration, the separately stored simple personality string,
the optional profile, the vector store's search results and `max_tokens`. -/

structure CharacterConfig where
  output_example : Str
  notes : Str
  personality : Str
  backstory : Str
  traits : Str
  preferences : Str
  worldview_background : Str
  worldview_setting : Str
deriving DecidableEq

/-- One result of `search_relevant_conversations`. -/
structure MemHit where
  relevance_score : ℚ
  user_message : Str
  ai_response : Str
deriving DecidableEq

structure Turn where
  role : Str
  content : Str
deriving DecidableEq

/-- Section 1: the CRITICAL directives. -/
def criticalParts (cfg : CharacterConfig) : List Str :=
  (if cfg.output_example ≠ [] then
    [("⚠️ CRITICAL - Output Example & Performance Requirements (MUST FOLLOW EXACTLY):\n").toList
      ++ cfg.output_example]
  else []) ++
  (if cfg.notes ≠ [] then
    (if cfg.output_example ≠ [] then
      [("⚠️ CRITICAL - Additional Notes (MUST FOLLOW):\n").toList ++ cfg.notes]
    else
      [("⚠️ CRITICAL - Response Guidelines (MUST FOLLOW):\n").toList ++ cfg.notes])
  else [])

/-- The `has_output_example` flag after section 1: set when
`output_example` is truthy, or (in the notes branch) when `notes` is. -/
def has_output_example (cfg : CharacterConfig) : Bool :=
  decide (cfg.output_example ≠ []) || decide (cfg.notes ≠ [])

/-- Section 2: the character description lines. -/
def characterParts (cfg : CharacterConfig) : List Str :=
  (if cfg.personality ≠ [] then
    [("Personality: ").toList ++ cfg.personality] else []) ++
  (if cfg.backstory ≠ [] then
    [("Backstory: ").toList ++ cfg.backstory] else []) ++
  (if cfg.traits ≠ [] then
    [("Traits: ").toList ++ cfg.traits] else []) ++
  (if cfg.preferences ≠ [] then
    [("Preferences: ").toList ++ cfg.preferences] else []) ++
  (if cfg.worldview_background ≠ [] then
    [("Worldview Background: ").toList ++ cfg.worldview_background]
  else []) ++
  (if cfg.worldview_setting ≠ [] then
    [("Worldview Setting: ").toList ++ cfg.worldview_setting] else [])

/-- The fallback after section 2: if no part so far contains
"Personality:", use the separately stored personality string, else a
generic default sentence. -/
def fallbackParts (partsSoFar : List Str) (loadedPersonality : Str) :
    List Str :=
  if ¬ partsSoFar.any (fun p => containsSub (("Personality:").toList) p)
  then
    if loadedPersonality ≠ [] then
      [("Personality: ").toList ++ loadedPersonality]
    else
      [("You are a friendly and supportive AI companion.").toList]
  else []

/-- The profile_summary items (server variant). -/
def serverSummaryItems (profile : UserProfile) : List Str :=
  (if profile.name ≠ [] then
    [("User: ").toList ++ profile.name] else []) ++
  (if profile.personality_traits ≠ [] then
    [("Traits: ").toList ++
      joinSep ((", ").toList) (profile.personality_traits.take 3)]
  else []) ++
  (if profile.goals ≠ [] then
    [("Goals: ").toList ++
      joinSep ((", ").toList) (profile.goals.take 3)]
  else [])

/-- Section 3 (server variant): pipe-joined profile summary. -/
def serverProfileParts : Option UserProfile → List Str
  | none => []
  | some profile =>
    if serverSummaryItems profile ≠ [] then
      [joinSep ((" | ").toList) (serverSummaryItems profile)]
    else []

/-- The profile_summary items (backend variant, facts included). -/
def backendSummaryItems (profile : UserProfile) : List Str :=
  (if profile.name ≠ [] then
    [("User: ").toList ++ profile.name] else []) ++
  (if profile.personality_traits ≠ [] then
    [("Traits: ").toList ++
      joinSep ((", ").toList) (profile.personality_traits.take 3)]
  else []) ++
  (if profile.goals ≠ [] then
    [("Goals: ").toList ++
      joinSep ((", ").toList) (profile.goals.take 3)]
  else []) ++
  (if profile.facts ≠ [] then
    [("Important facts: ").toList ++
      joinSep ((", ").toList) (profile.facts.take 5)]
  else [])

/-- Section 3 (backend variant): also shows the first 5 facts. -/
def backendProfileParts : Option UserProfile → List Str
  | none => []
  | some profile =>
    if backendSummaryItems profile ≠ [] then
      [joinSep ((" | ").toList) (backendSummaryItems profile)]
    else []

/-- Last user message of the history (`""` when there is none). -/
def lastUserMsg (history : List Turn) : Str :=
  match history.reverse.find? (fun t => t.role == ("user").toList) with
  | some t => t.content
  | none => []

/-- Section 4: the retrieved-memory part — the first search hit whose
relevance score exceeds the threshold, each side truncated to 100
characters and labeled `U:` / `A:`. -/
def memoryParts (threshold : ℚ) (include_rag vector_store : Bool)
    (history : List Turn) (searchResults : List MemHit) : List Str :=
  if include_rag ∧ vector_store ∧ history ≠ [] then
    if lastUserMsg history ≠ [] then
      match searchResults.filter
          (fun c => decide (threshold < c.relevance_score)) with
      | [] => []
      | conv :: _ =>
        [("Relevant memory:\nU: ").toList ++ conv.user_message.take 100 ++
          ("...\nA: ").toList ++ conv.ai_response.take 100 ++
          ("...").toList]
    else []
  else []

/-- Section 5: the default guidelines text, with targets derived from
`max_tokens`. -/
def guidelinesText (maxTokens : Int) : Str :=
  let target_sentences : Str :=
    if maxTokens ≤ 100 then ("1-2").toList
    else if maxTokens ≤ 200 then ("2-3").toList
    else ("2-4").toList
  let target_words : Str :=
    if maxTokens ≤ 100 then ("30-50").toList
    else if maxTokens ≤ 200 then ("50-80").toList
    else ("80-120").toList
  ("Guidelines:\n- Use the user profile information naturally in conversation\n- Reference relevant past conversations when appropriate\n- Stay consistent with your personality\n- Be proactive and caring\n- IMPORTANT: Keep responses concise (").toList
    ++ target_sentences ++ (" sentences, ").toList ++ target_words ++
    (" words). Express your complete thought in these few sentences - be brief but complete. Do not start a long response that gets cut off.").toList

/-- Section 5 is emitted only when no explicit critical directive was
supplied. -/
def guidelinesParts (cfg : CharacterConfig) (maxTokens : Int) : List Str :=
  if has_output_example cfg then [] else [guidelinesText maxTokens]

/-- The parts list assembled by src/api/server.py's `build_system_prompt`;
the returned prompt is these parts joined with blank lines. -/
def serverPromptParts (cfg : CharacterConfig) (loadedPersonality : Str)
    (pm : Option UserProfile) (include_rag vector_store : Bool)
    (history : List Turn) (searchResults : List MemHit) (maxTokens : Int) :
    List Str :=
  let partsA := criticalParts cfg ++ characterParts cfg
  partsA ++ fallbackParts partsA loadedPersonality ++
    serverProfileParts pm ++
    memoryParts (0.7 : ℚ) include_rag vector_store history searchResults ++
    guidelinesParts cfg maxTokens

/-- The parts list assembled by backend/app/main.py's
`build_system_prompt` (threshold 0.6, facts included in the summary). -/
def backendPromptParts (cfg : CharacterConfig) (loadedPersonality : Str)
    (pm : Option UserProfile) (include_rag vector_store : Bool)
    (history : List Turn) (searchResults : List MemHit) (maxTokens : Int) :
    List Str :=
  let partsA := criticalParts cfg ++ characterParts cfg
  partsA ++ fallbackParts partsA loadedPersonality ++
    backendProfileParts pm ++
    memoryParts (0.6 : ℚ) include_rag vector_store history searchResults ++
    guidelinesParts cfg maxTokens

/-- The assembled prompt string (server variant). -/
def build_system_prompt_server (cfg : CharacterConfig)
    (loadedPersonality : Str) (pm : Option UserProfile)
    (include_rag vector_store : Bool) (history : List Turn)
    (searchResults : List MemHit) (maxTokens : Int) : Str :=
  joinSep (("\n\n").toList)
    (serverPromptParts cfg loadedPersonality pm include_rag vector_store
      history searchResults maxTokens)

/-! ### Identifying sections inside the assembled parts list -/

/-- The CRITICAL marker emitted by section 1. -/
def markerC : Str := ("⚠️ CRITICAL").toList

/-- The start of the default-guidelines block. -/
def markerG : Str := ("Guidelines:").toList

/-- The start of the retrieved-memory block. -/
def markerR : Str := ("Relevant memory:").toList

/-- Whether a part starts with the given marker. -/
def isMarked (marker : Str) (p : Str) : Bool := marker.isPrefixOf p

theorem mem_ite_single {c : Prop} [Decidable c] {x part : α}
    (h : part ∈ (if c then [x] else ([] : List α))) : part = x := by
  split at h
  · simpa using h
  · exact absurd h (by simp)

theorem isMarked_append_true {marker label : Str} (rest : Str)
    (h : marker <+: label) : isMarked marker (label ++ rest) = true :=
  List.isPrefixOf_iff_prefix.mpr (h.trans (label.prefix_append rest))

theorem isMarked_append_false {marker label : Str} (rest : Str)
    (h1 : ¬ marker <+: label) (h2 : ¬ label <+: marker) :
    isMarked marker (label ++ rest) = false := by
  rw [← Bool.not_eq_true]
  intro hT
  have hp : marker <+: label ++ rest := List.isPrefixOf_iff_prefix.mp hT
  rcases le_or_lt marker.length label.length with hle | hlt
  · exact h1 (List.prefix_of_prefix_length_le hp (label.prefix_append rest)
      hle)
  · exact h2 (List.prefix_of_prefix_length_le (label.prefix_append rest) hp
      (le_of_lt hlt))

/-- The part is a known label followed by arbitrary content. -/
def HasLabelIn (labels : List Str) (part : Str) : Prop :=
  ∃ label rest, part = label ++ rest ∧ label ∈ labels

theorem shape_of_ite {c : Prop} [Decidable c] {label content : Str}
    {labels : List Str} (hl : label ∈ labels) {part : Str}
    (h : part ∈ (if c then [label ++ content] else ([] : List Str))) :
    HasLabelIn labels part :=
  ⟨label, content, mem_ite_single h, hl⟩

theorem no_marker_of_labels {marker : Str} {labels : List Str} {part : Str}
    (hshape : HasLabelIn labels part)
    (hdec : ∀ label ∈ labels, ¬ marker <+: label ∧ ¬ label <+: marker) :
    isMarked marker part = false := by
  obtain ⟨label, rest, rfl, hl⟩ := hshape
  exact isMarked_append_false rest (hdec label hl).1 (hdec label hl).2

theorem countP_zero_of_shapes {marker : Str} {labels : List Str}
    {L : List Str} (hshape : ∀ part ∈ L, HasLabelIn labels part)
    (hdec : ∀ label ∈ labels, ¬ marker <+: label ∧ ¬ label <+: marker) :
    L.countP (isMarked marker) = 0 :=
  List.countP_eq_zero.mpr (fun a ha => by
    rw [no_marker_of_labels (hshape a ha) hdec]
    exact Bool.false_ne_true)

theorem filter_nil_of_shapes {marker : Str} {labels : List Str}
    {L : List Str} (hshape : ∀ part ∈ L, HasLabelIn labels part)
    (hdec : ∀ label ∈ labels, ¬ marker <+: label ∧ ¬ label <+: marker) :
    L.filter (isMarked marker) = [] := by
  rw [List.filter_eq_nil_iff]
  intro a ha
  rw [no_marker_of_labels (hshape a ha) hdec]
  exact Bool.false_ne_true

/-- The label literals opening each kind of part. -/
def criticalLabels : List Str :=
  [("⚠️ CRITICAL - Output Example & Performance Requirements (MUST FOLLOW EXACTLY):\n").toList,
   ("⚠️ CRITICAL - Additional Notes (MUST FOLLOW):\n").toList,
   ("⚠️ CRITICAL - Response Guidelines (MUST FOLLOW):\n").toList]

def charLabels : List Str :=
  [("Personality: ").toList, ("Backstory: ").toList, ("Traits: ").toList,
   ("Preferences: ").toList, ("Worldview Background: ").toList,
   ("Worldview Setting: ").toList,
   ("You are a friendly and supportive AI companion.").toList]

def profileLabels : List Str :=
  [("User: ").toList, ("Traits: ").toList, ("Goals: ").toList,
   ("Important facts: ").toList]

def memoryLabels : List Str := [("Relevant memory:\nU: ").toList]

def guidelinesLabels : List Str :=
  [("Guidelines:\n- Use the user profile information naturally in conversation\n- Reference relevant past conversations when appropriate\n- Stay consistent with your personality\n- Be proactive and caring\n- IMPORTANT: Keep responses concise (").toList]

theorem criticalParts_shape (cfg : CharacterConfig) :
    ∀ part ∈ criticalParts cfg, HasLabelIn criticalLabels part := by
  intro part hp
  unfold criticalParts at hp
  rcases List.mem_append.mp hp with h | h
  · exact shape_of_ite (by simp [criticalLabels]) h
  · split at h
    · split at h
      · simp only [List.mem_singleton] at h
        exact ⟨("⚠️ CRITICAL - Additional Notes (MUST FOLLOW):\n").toList,
          cfg.notes, h, by simp [criticalLabels]⟩
      · simp only [List.mem_singleton] at h
        exact ⟨("⚠️ CRITICAL - Response Guidelines (MUST FOLLOW):\n").toList,
          cfg.notes, h, by simp [criticalLabels]⟩
    · exact absurd h (by simp)

theorem characterParts_shape (cfg : CharacterConfig) :
    ∀ part ∈ characterParts cfg, HasLabelIn charLabels part := by
  intro part hp
  unfold characterParts at hp
  simp only [List.mem_append] at hp
  rcases hp with ((((h | h) | h) | h) | h) | h
  · exact shape_of_ite (by simp [charLabels]) h
  · exact shape_of_ite (by simp [charLabels]) h
  · exact shape_of_ite (by simp [charLabels]) h
  · exact shape_of_ite (by simp [charLabels]) h
  · exact shape_of_ite (by simp [charLabels]) h
  · exact shape_of_ite (by simp [charLabels]) h

theorem fallbackParts_shape (ps : List Str) (lp : Str) :
    ∀ part ∈ fallbackParts ps lp, HasLabelIn charLabels part := by
  intro part hp
  unfold fallbackParts at hp
  split at hp
  · split at hp
    · simp only [List.mem_singleton] at hp
      exact ⟨("Personality: ").toList, lp, hp, by simp [charLabels]⟩
    · simp only [List.mem_singleton] at hp
      refine ⟨("You are a friendly and supportive AI companion.").toList,
        [], ?_, by simp [charLabels]⟩
      rw [hp, List.append_nil]
  · exact absurd hp (by simp)

theorem summary_shape_aux {profile : UserProfile} {s : Str}
    (hs : s ∈ serverSummaryItems profile) :
    HasLabelIn profileLabels s := by
  unfold serverSummaryItems at hs
  simp only [List.mem_append] at hs
  rcases hs with (h | h) | h
  · exact shape_of_ite (by simp [profileLabels]) h
  · exact shape_of_ite (by simp [profileLabels]) h
  · exact shape_of_ite (by simp [profileLabels]) h

theorem summary_shape_aux_backend {profile : UserProfile} {s : Str}
    (hs : s ∈ backendSummaryItems profile) :
    HasLabelIn profileLabels s := by
  unfold backendSummaryItems at hs
  simp only [List.mem_append] at hs
  rcases hs with ((h | h) | h) | h
  · exact shape_of_ite (by simp [profileLabels]) h
  · exact shape_of_ite (by simp [profileLabels]) h
  · exact shape_of_ite (by simp [profileLabels]) h
  · exact shape_of_ite (by simp [profileLabels]) h

theorem joined_shape {labels : List Str} {summary : List Str} {part : Str}
    (hne : summary ≠ [])
    (hall : ∀ s ∈ summary, HasLabelIn labels s)
    (hpart : part = joinSep ((" | ").toList) summary) :
    HasLabelIn labels part := by
  cases summary with
  | nil => exact absurd rfl hne
  | cons s0 ss =>
    obtain ⟨t, ht⟩ := joinSep_cons_eq_append ((" | ").toList) s0 ss
    obtain ⟨label, rest, hrest, hl⟩ := hall s0 (by simp)
    refine ⟨label, rest ++ t, ?_, hl⟩
    rw [hpart, ht, hrest, List.append_assoc]

theorem serverProfileParts_shape (pm : Option UserProfile) :
    ∀ part ∈ serverProfileParts pm, HasLabelIn profileLabels part := by
  intro part hp
  cases pm with
  | none => exact absurd hp (by simp [serverProfileParts])
  | some profile =>
    rw [serverProfileParts] at hp
    split at hp
    · exact joined_shape (by assumption)
        (fun s hs => summary_shape_aux hs) (List.mem_singleton.mp hp)
    · exact absurd hp (by simp)

theorem backendProfileParts_shape (pm : Option UserProfile) :
    ∀ part ∈ backendProfileParts pm, HasLabelIn profileLabels part := by
  intro part hp
  cases pm with
  | none => exact absurd hp (by simp [backendProfileParts])
  | some profile =>
    rw [backendProfileParts] at hp
    split at hp
    · exact joined_shape (by assumption)
        (fun s hs => summary_shape_aux_backend hs)
        (List.mem_singleton.mp hp)
    · exact absurd hp (by simp)

theorem memoryParts_shape (threshold : ℚ) (ir vs : Bool)
    (history : List Turn) (hits : List MemHit) :
    ∀ part ∈ memoryParts threshold ir vs history hits,
      HasLabelIn memoryLabels part := by
  intro part hp
  unfold memoryParts at hp
  split at hp
  · split at hp
    · split at hp
      · exact absurd hp (by simp)
      · rename_i conv convTail convEq
        simp only [List.mem_singleton] at hp
        refine ⟨("Relevant memory:\nU: ").toList,
          conv.user_message.take 100 ++ ("...\nA: ").toList ++
            conv.ai_response.take 100 ++ ("...").toList, ?_,
          by simp [memoryLabels]⟩
        rw [hp]
        simp only [List.append_assoc]
    · exact absurd hp (by simp)
  · exact absurd hp (by simp)

theorem guidelinesParts_shape (cfg : CharacterConfig) (mt : Int) :
    ∀ part ∈ guidelinesParts cfg mt, HasLabelIn guidelinesLabels part := by
  intro part hp
  unfold guidelinesParts at hp
  split at hp
  · exact absurd hp (by simp)
  · simp only [List.mem_singleton] at hp
    rw [hp]
    refine ⟨("Guidelines:\n- Use the user profile information naturally in conversation\n- Reference relevant past conversations when appropriate\n- Stay consistent with your personality\n- Be proactive and caring\n- IMPORTANT: Keep responses concise (").toList,
      (if mt ≤ 100 then ("1-2").toList
        else if mt ≤ 200 then ("2-3").toList else ("2-4").toList) ++
        (" sentences, ").toList ++
        (if mt ≤ 100 then ("30-50").toList
          else if mt ≤ 200 then ("50-80").toList
          else ("80-120").toList) ++
        (" words). Express your complete thought in these few sentences - be brief but complete. Do not start a long response that gets cut off.").toList,
      ?_, by simp [guidelinesLabels]⟩
    unfold guidelinesText
    simp only [List.append_assoc]

theorem prefix_append_of_prefix {marker A : Str} (B : Str)
    (h : marker <+: A) : marker <+: A ++ B :=
  h.trans (A.prefix_append B)

theorem criticalParts_countC (cfg : CharacterConfig)
    (h1 : cfg.output_example ≠ []) (h2 : cfg.notes = []) :
    (criticalParts cfg).countP (isMarked markerC) = 1 := by
  unfold criticalParts
  rw [if_pos h1, if_neg (by simp [h2]), List.append_nil,
    List.countP_cons, List.countP_nil,
    if_pos (isMarked_append_true cfg.output_example (by decide))]

theorem guidelinesParts_countG (cfg : CharacterConfig) (mt : Int) :
    (guidelinesParts cfg mt).countP (isMarked markerG) =
      if has_output_example cfg then 0 else 1 := by
  unfold guidelinesParts
  split
  · simp
  · rw [List.countP_cons, List.countP_nil, if_pos ?_]
    have hpre : markerG <+: guidelinesText mt := by
      unfold guidelinesText
      simp only [List.append_assoc]
      exact prefix_append_of_prefix _ (by decide)
    exact List.isPrefixOf_iff_prefix.mpr hpre

theorem serverParts_countC (cfg : CharacterConfig) (lp : Str)
    (pm : Option UserProfile) (ir vs : Bool) (history : List Turn)
    (hits : List MemHit) (mt : Int) :
    (serverPromptParts cfg lp pm ir vs history hits mt).countP
        (isMarked markerC) =
      (criticalParts cfg).countP (isMarked markerC) := by
  unfold serverPromptParts
  simp only [List.countP_append]
  rw [countP_zero_of_shapes (characterParts_shape cfg) (by decide),
    countP_zero_of_shapes (fallbackParts_shape _ lp) (by decide),
    countP_zero_of_shapes (serverProfileParts_shape pm) (by decide),
    countP_zero_of_shapes (memoryParts_shape _ _ _ _ _) (by decide),
    countP_zero_of_shapes (guidelinesParts_shape cfg mt) (by decide)]
  omega

theorem serverParts_countG (cfg : CharacterConfig) (lp : Str)
    (pm : Option UserProfile) (ir vs : Bool) (history : List Turn)
    (hits : List MemHit) (mt : Int) :
    (serverPromptParts cfg lp pm ir vs history hits mt).countP
        (isMarked markerG) =
      if has_output_example cfg then 0 else 1 := by
  unfold serverPromptParts
  simp only [List.countP_append]
  rw [countP_zero_of_shapes (criticalParts_shape cfg) (by decide),
    countP_zero_of_shapes (characterParts_shape cfg) (by decide),
    countP_zero_of_shapes (fallbackParts_shape _ lp) (by decide),
    countP_zero_of_shapes (serverProfileParts_shape pm) (by decide),
    countP_zero_of_shapes (memoryParts_shape _ _ _ _ _) (by decide),
    guidelinesParts_countG cfg mt]
  split <;> omega

/-- C7: with `output_example` set and `notes` unset, the assembled parts
contain exactly one part carrying the CRITICAL marker and no
default-guidelines part; and a guidelines part is present only when
neither `output_example` nor `notes` supplied a critical directive. -/
theorem server_prompt_critical_exactly_one (cfg : CharacterConfig)
    (lp : Str) (pm : Option UserProfile) (ir vs : Bool)
    (history : List Turn) (hits : List MemHit) (mt : Int) :
    (cfg.output_example ≠ [] → cfg.notes = [] →
      (serverPromptParts cfg lp pm ir vs history hits mt).countP
          (isMarked markerC) = 1 ∧
      (serverPromptParts cfg lp pm ir vs history hits mt).countP
          (isMarked markerG) = 0) ∧
    ((serverPromptParts cfg lp pm ir vs history hits mt).countP
        (isMarked markerG) ≠ 0 →
      cfg.output_example = [] ∧ cfg.notes = []) := by
  constructor
  · intro h1 h2
    constructor
    · rw [serverParts_countC, criticalParts_countC cfg h1 h2]
    · rw [serverParts_countG,
        if_pos (by simp [has_output_example, h1])]
  · intro hcount
    rw [serverParts_countG] at hcount
    by_cases hoe : has_output_example cfg = true
    · rw [if_pos hoe] at hcount
      exact absurd rfl hcount
    · have : (decide (cfg.output_example ≠ []) ||
          decide (cfg.notes ≠ [])) = false := by
        simpa [has_output_example] using hoe
      rw [Bool.or_eq_false_iff] at this
      simp only [decide_eq_false_iff_not, not_not] at this
      exact this

/-- Witness for C7: a configuration with only `output_example` set. -/
theorem server_prompt_critical_exactly_one_witness :
    (serverPromptParts
        { output_example := ("Speak in short, warm sentences.").toList
          notes := []
          personality := []
          backstory := []
          traits := []
          preferences := []
          worldview_background := []
          worldview_setting := [] }
        [] none true true [] [] 150).countP (isMarked markerC) = 1 :=
  ((server_prompt_critical_exactly_one _ [] none true true [] [] 150).1
    (by decide) rfl).1

theorem backendParts_filterR (cfg : CharacterConfig) (lp : Str)
    (pm : Option UserProfile) (ir vs : Bool) (history : List Turn)
    (hits : List MemHit) (mt : Int) :
    (backendPromptParts cfg lp pm ir vs history hits mt).filter
        (isMarked markerR) =
      (memoryParts (0.6 : ℚ) ir vs history hits).filter
        (isMarked markerR) := by
  unfold backendPromptParts
  simp only [List.filter_append]
  rw [filter_nil_of_shapes (criticalParts_shape cfg) (by decide),
    filter_nil_of_shapes (characterParts_shape cfg) (by decide),
    filter_nil_of_shapes (fallbackParts_shape _ lp) (by decide),
    filter_nil_of_shapes (backendProfileParts_shape pm) (by decide),
    filter_nil_of_shapes (guidelinesParts_shape cfg mt) (by decide)]
  simp

/-- C6: when the memory search returns hits scored 0.8 and 0.55 and the
backend threshold is 0.6, the assembled parts contain exactly one
retrieved-memory part, built from the 0.8 hit only, with both sides
truncated to at most 100 characters and labeled `U:` / `A:`. -/
theorem backend_memory_section (cfg : CharacterConfig) (lp : Str)
    (pm : Option UserProfile) (history : List Turn) (mt : Int)
    (u1 a1 u2 a2 : Str) (hh : history ≠ [])
    (hl : lastUserMsg history ≠ []) :
    (backendPromptParts cfg lp pm true true history
        [⟨(0.8 : ℚ), u1, a1⟩, ⟨(0.55 : ℚ), u2, a2⟩] mt).filter
        (isMarked markerR) =
      [("Relevant memory:\nU: ").toList ++ u1.take 100 ++
        ("...\nA: ").toList ++ a1.take 100 ++ ("...").toList] ∧
    (u1.take 100).length ≤ 100 ∧ (a1.take 100).length ≤ 100 := by
  refine ⟨?_, ?_, ?_⟩
  · rw [backendParts_filterR]
    unfold memoryParts
    rw [if_pos ⟨rfl, rfl, hh⟩, if_pos hl]
    have hfil : List.filter
        (fun (c : MemHit) => decide ((0.6 : ℚ) < c.relevance_score))
        [⟨(0.8 : ℚ), u1, a1⟩, ⟨(0.55 : ℚ), u2, a2⟩] =
        [⟨(0.8 : ℚ), u1, a1⟩] := by
      simp only [List.filter_cons, List.filter_nil]
      norm_num
    rw [hfil]
    have hpos : isMarked markerR
        (("Relevant memory:\nU: ").toList ++
          (MemHit.mk (0.8 : ℚ) u1 a1).user_message.take 100 ++
          ("...\nA: ").toList ++
          (MemHit.mk (0.8 : ℚ) u1 a1).ai_response.take 100 ++
          ("...").toList) = true := by
      simp only [List.append_assoc]
      exact isMarked_append_true _ (by decide)
    rw [List.filter_cons_of_pos hpos, List.filter_nil]
  · exact List.length_take_le 100 u1
  · exact List.length_take_le 100 a1

/-- Witness for C6 at a concrete history and snippets. -/
theorem backend_memory_section_witness :
    (backendPromptParts
        { output_example := [], notes := [], personality := [],
          backstory := [], traits := [], preferences := [],
          worldview_background := [], worldview_setting := [] }
        [] none true true [⟨("user").toList, ("tell me more").toList⟩]
        [⟨(0.8 : ℚ), ("I love hiking").toList, ("That is great!").toList⟩,
          ⟨(0.55 : ℚ), ("other").toList, ("reply").toList⟩] 150).filter
        (isMarked markerR) =
      [("Relevant memory:\nU: ").toList ++
        ("I love hiking").toList.take 100 ++ ("...\nA: ").toList ++
        ("That is great!").toList.take 100 ++ ("...").toList] :=
  (backend_memory_section _ [] none _ 150 _ _ _ _
    (by decide) (by decide)).1

/-! ## Model-call failure handling
Transcribed from `DesktopPet._on_ai_error` (src/main.py): the handler
removes the thinking indicator, shows a user-visible error message in the
chat UI, appends it to the conversation history as an assistant turn and
saves the history.  It issues no further model call. -/

structure ErrorHandlerResult where
  displayed : List Str
  history : List Turn
  savedHistory : Bool
  modelCallsIssued : Nat
deriving DecidableEq

/-- `_on_ai_error(error)`, as a function of the conversation history. -/
def on_ai_error (history : List Turn) (error : Str) : ErrorHandlerResult :=
  let error_msg := ("Sorry, I encountered an error: ").toList ++ error
  { displayed := [error_msg]
    history := history ++ [⟨("assistant").toList, error_msg⟩]
    savedHistory := true
    modelCallsIssued := 0 }

/-- C9: on a model-call failure a synthetic assistant Turn carrying a
user-visible error message (containing the error text) is appended to the
history in place of a generated response, the message is shown to the
user, the history is persisted, and no retry (further model call) is
attempted. -/
theorem on_ai_error_behaviour (history : List Turn) (error : Str) :
    (on_ai_error history error).history =
      history ++ [⟨("assistant").toList,
        ("Sorry, I encountered an error: ").toList ++ error⟩] ∧
    (on_ai_error history error).displayed =
      [("Sorry, I encountered an error: ").toList ++ error] ∧
    containsSub error
      (("Sorry, I encountered an error: ").toList ++ error) = true ∧
    (on_ai_error history error).modelCallsIssued = 0 ∧
    (on_ai_error history error).savedHistory = true := by
  refine ⟨rfl, rfl, ?_, rfl, rfl⟩
  rw [containsSub_iff]
  exact ⟨("Sorry, I encountered an error: ").toList, [], by simp⟩

/-! ## Profile extraction parsing
Transcribed from `ProfileExtractor` (src/domain/ai/profile_extractor.py).
`json.loads` is modelled by a fuel-bounded JSON parser over `List Char`
(the fuel is generous enough never to run out on an accepted document);
the two `re.search` fallbacks are modelled by deterministic matchers with
the same leftmost-greedy semantics (the patterns contain no constructs
needing backtracking).  A parse of a non-object followed by
`_validate_extraction` raises `AttributeError` in Python; that is the
`.error` outcome, caught by `extract_user_info`'s blanket handler. -/

/-- JSON values; numbers keep only whether they are zero (all the code
ever does with a number is a Python truthiness test). -/
inductive JVal where
  | jnull
  | jbool (b : Bool)
  | jnum (isZero : Bool)
  | jstr (s : Str)
  | jarr (elems : List JVal)
  | jobj (fields : List (Str × JVal))

def jsonWsChar (c : Char) : Bool :=
  c = ' ' ∨ c = '\t' ∨ c = '\n' ∨ c = '\r'

def skipWs (s : List Char) : List Char := s.dropWhile jsonWsChar

def isDigitC (c : Char) : Bool := '0' ≤ c ∧ c ≤ '9'

def isHexC (c : Char) : Bool :=
  isDigitC c ∨ ('a' ≤ c ∧ c ≤ 'f') ∨ ('A' ≤ c ∧ c ≤ 'F')

def escChar : Char → Option Char
  | '"' => some '"'
  | '\\' => some '\\'
  | '/' => some '/'
  | 'b' => some '\x08'
  | 'f' => some '\x0c'
  | 'n' => some '\n'
  | 'r' => some '\r'
  | 't' => some '\t'
  | _ => none

def hexVal (c : Char) : Nat :=
  if isDigitC c then c.toNat - '0'.toNat
  else if 'a' ≤ c ∧ c ≤ 'f' then c.toNat - 'a'.toNat + 10
  else c.toNat - 'A'.toNat + 10

/-- JSON string body after the opening quote (strict mode: raw control
characters rejected; surrogate pairs not recombined). -/
def parseStrBody : Nat → List Char → Option (Str × List Char)
  | 0, _ => none
  | fuel + 1, s =>
    match s with
    | [] => none
    | '"' :: rest => some ([], rest)
    | '\\' :: rest =>
      match rest with
      | [] => none
      | e :: rest2 =>
        if e = 'u' then
          match rest2 with
          | h1 :: h2 :: h3 :: h4 :: rest3 =>
            if isHexC h1 ∧ isHexC h2 ∧ isHexC h3 ∧ isHexC h4 then
              match parseStrBody fuel rest3 with
              | some (cs, r) =>
                some (Char.ofNat (hexVal h1 * 4096 + hexVal h2 * 256 +
                  hexVal h3 * 16 + hexVal h4) :: cs, r)
              | none => none
            else none
          | _ => none
        else
          match escChar e with
          | some c =>
            match parseStrBody fuel rest2 with
            | some (cs, r) => some (c :: cs, r)
            | none => none
          | none => none
    | c :: rest =>
      if c.toNat < 32 then none
      else
        match parseStrBody fuel rest with
        | some (cs, r) => some (c :: cs, r)
        | none => none

/-- JSON integer part: `0` or a nonzero digit followed by digits. -/
def parseIntPart : List Char → Option (List Char × List Char)
  | [] => none
  | c :: rest =>
    if c = '0' then some (['0'], rest)
    else if isDigitC c then
      some (c :: rest.takeWhile isDigitC, rest.dropWhile isDigitC)
    else none

/-- Optional fraction part `.digits`; consumes nothing if absent/malformed
(matching the regex used by Python's json scanner). -/
def parseFracOpt (s : List Char) : List Char × List Char :=
  match s with
  | '.' :: rest =>
    let ds := rest.takeWhile isDigitC
    if ds ≠ [] then (ds, rest.dropWhile isDigitC) else ([], s)
  | _ => ([], s)

/-- Optional exponent part `[eE][+-]?digits`; consumes nothing if
absent/malformed. -/
def parseExpOpt (s : List Char) : List Char × List Char :=
  match s with
  | c :: rest =>
    if c = 'e' ∨ c = 'E' then
      match rest with
      | sign :: rest2 =>
        if sign = '+' ∨ sign = '-' then
          let ds := rest2.takeWhile isDigitC
          if ds ≠ [] then (ds, rest2.dropWhile isDigitC) else ([], s)
        else
          let ds := rest.takeWhile isDigitC
          if ds ≠ [] then (ds, rest.dropWhile isDigitC) else ([], s)
      | [] => ([], s)
    else ([], s)
  | [] => ([], s)

/-- JSON number (the value is zero iff all mantissa digits are zero). -/
def parseNum (s : List Char) : Option (JVal × List Char) :=
  let body := fun (s1 : List Char) =>
    match parseIntPart s1 with
    | none => none
    | some (ip, s2) =>
      let fr := parseFracOpt s2
      let ex := parseExpOpt fr.2
      some (JVal.jnum (ip.all (fun c => c = '0') &&
        fr.1.all (fun c => c = '0')), ex.2)
  match s with
  | '-' :: rest => body rest
  | _ => body s

mutual

/-- One JSON value, at the current position (no leading whitespace). -/
def parseJ : Nat → List Char → Option (JVal × List Char)
  | 0, _ => none
  | fuel + 1, s =>
    match s with
    | [] => none
    | c :: rest =>
      if c = '"' then
        match parseStrBody (fuel + 1) rest with
        | some (cs, r) => some (.jstr cs, r)
        | none => none
      else if c = '[' then
        match skipWs rest with
        | ']' :: r2 => some (.jarr [], r2)
        | s2 =>
          match parseArrElems fuel s2 with
          | some (vs, r) => some (.jarr vs, r)
          | none => none
      else if c = '{' then
        match skipWs rest with
        | '}' :: r2 => some (.jobj [], r2)
        | s2 =>
          match parseObjMembers fuel s2 with
          | some (kvs, r) => some (.jobj kvs, r)
          | none => none
      else if c = 'n' then
        if ("ull").toList.isPrefixOf rest then some (.jnull, rest.drop 3)
        else none
      else if c = 't' then
        if ("rue").toList.isPrefixOf rest then
          some (.jbool true, rest.drop 3)
        else none
      else if c = 'f' then
        if ("alse").toList.isPrefixOf rest then
          some (.jbool false, rest.drop 4)
        else none
      else if c = 'N' then
        if ("aN").toList.isPrefixOf rest then
          some (.jnum false, rest.drop 2)
        else none
      else if c = 'I' then
        if ("nfinity").toList.isPrefixOf rest then
          some (.jnum false, rest.drop 7)
        else none
      else if c = '-' ∧ ("Infinity").toList.isPrefixOf rest then
        some (.jnum false, rest.drop 8)
      else parseNum s

/-- Comma-separated array elements up to the closing bracket. -/
def parseArrElems : Nat → List Char → Option (List JVal × List Char)
  | 0, _ => none
  | fuel + 1, s =>
    match parseJ fuel s with
    | none => none
    | some (v, r) =>
      match skipWs r with
      | ',' :: r2 =>
        match parseArrElems fuel (skipWs r2) with
        | some (vs, r3) => some (v :: vs, r3)
        | none => none
      | ']' :: r2 => some ([v], r2)
      | _ => none

/-- Comma-separated object members up to the closing brace. -/
def parseObjMembers : Nat → List Char →
    Option (List (Str × JVal) × List Char)
  | 0, _ => none
  | fuel + 1, s =>
    match s with
    | '"' :: rest =>
      match parseStrBody (fuel + 1) rest with
      | none => none
      | some (k, r) =>
        match skipWs r with
        | ':' :: r2 =>
          match parseJ fuel (skipWs r2) with
          | none => none
          | some (v, r3) =>
            match skipWs r3 with
            | ',' :: r4 =>
              match parseObjMembers fuel (skipWs r4) with
              | some (kvs, r5) => some ((k, v) :: kvs, r5)
              | none => none
            | '}' :: r4 => some ([(k, v)], r4)
            | _ => none
        | _ => none
    | _ => none

end

/-- `json.loads`: whole-document parse, allowing surrounding whitespace. -/
def jsonParse (s : List Char) : Option JVal :=
  match parseJ (4 * s.length + 4) (skipWs s) with
  | some (v, r) => if skipWs r = [] then some v else none
  | none => none

/-- Python truthiness of a decoded JSON value. -/
def jTruthy : JVal → Bool
  | .jnull => false
  | .jbool b => b
  | .jnum z => ! z
  | .jstr s => decide (s ≠ [])
  | .jarr l => ! l.isEmpty
  | .jobj f => ! f.isEmpty

def isDict : JVal → Bool
  | .jobj _ => true
  | _ => false

def isListV : JVal → Bool
  | .jarr _ => true
  | _ => false

def isStrV : JVal → Bool
  | .jstr _ => true
  | _ => false

/-- `dict.get(k, d)`: the value of the last occurrence of the key (Python
keeps the last duplicate), or the default. -/
def getD (fields : List (Str × JVal)) (k : Str) (d : JVal) : JVal :=
  match (fields.reverse.find? (fun q => q.1 == k)).map Prod.snd with
  | some v => v
  | none => d

/-- The shape-validated extraction record (`_validate_extraction`'s
output): each field is the raw JSON value, coerced to its empty default
when of the wrong type. -/
structure RawExtraction where
  name : JVal
  personality_traits : JVal
  preferences : JVal
  goals : JVal
  important_dates : JVal
  facts : JVal

/-- `_get_empty_extraction()`. -/
def emptyRawExtraction : RawExtraction :=
  { name := .jnull
    personality_traits := .jarr []
    preferences := .jobj []
    goals := .jarr []
    important_dates := .jobj []
    facts := .jarr [] }

def coerceName (v : JVal) : JVal :=
  if jTruthy v ∧ ¬ isStrV v then .jnull else v

def coerceList (v : JVal) : JVal := if isListV v then v else .jarr []

def coerceDict (v : JVal) : JVal := if isDict v then v else .jobj []

/-- `_validate_extraction(data)` for a decoded JSON object. -/
def validate_extraction (fields : List (Str × JVal)) : RawExtraction :=
  { name := coerceName (getD fields (("name").toList) .jnull)
    personality_traits :=
      coerceList (getD fields (("personality_traits").toList) (.jarr []))
    preferences :=
      coerceDict (getD fields (("preferences").toList) (.jobj []))
    goals := coerceList (getD fields (("goals").toList) (.jarr []))
    important_dates :=
      coerceDict (getD fields (("important_dates").toList) (.jobj []))
    facts := coerceList (getD fields (("facts").toList) (.jarr [])) }

/-- `_validate_extraction` applied to an arbitrary decoded value: on a
non-dict, `data.get` raises `AttributeError` (the `.error` outcome). -/
def validateJ : JVal → Except Unit RawExtraction
  | .jobj fields => .ok (validate_extraction fields)
  | _ => .error ()

/-- `str.strip()`. -/
def pyStrip (s : List Char) : List Char :=
  (s.dropWhile isPySpace).rdropWhile isPySpace

/-- The fenced-code-marker stripping of `_parse_json_response`. -/
def stripFences (response : List Char) : List Char :=
  let r1 := pyStrip response
  let r2 :=
    if ("```json").toList.isPrefixOf r1 then r1.drop 7
    else if ("```").toList.isPrefixOf r1 then r1.drop 3
    else r1
  let r3 := if ("```").toList.isSuffixOf r2 then r2.take (r2.length - 3)
    else r2
  pyStrip r3

/-- Matcher for the pattern fragment
`\x7b[^\x7b\x7d]*(?:\x7b[^\x7b\x7d]*\x7d[^\x7b\x7d]*)*\x7d` starting right
after an opening brace: returns the total matched length (greedy; the
pattern is deterministic since the starred group must start with a
brace). -/
def nestedLoop : Nat → List Char → Nat → Option Nat
  | 0, _, _ => none
  | fuel + 1, s, acc =>
    let run := s.takeWhile (fun c => c ≠ '{' ∧ c ≠ '}')
    let s1 := s.dropWhile (fun c => c ≠ '{' ∧ c ≠ '}')
    match s1 with
    | '}' :: _ => some (acc + run.length + 1)
    | '{' :: r2 =>
      let run2 := r2.takeWhile (fun c => c ≠ '{' ∧ c ≠ '}')
      let r3 := r2.dropWhile (fun c => c ≠ '{' ∧ c ≠ '}')
      match r3 with
      | '}' :: r4 =>
        nestedLoop fuel r4 (acc + run.length + 1 + run2.length + 1)
      | _ => none
    | _ => none

/-- Match of the nested-brace pattern at the current position. -/
def matchNested (s : List Char) : Option Nat :=
  match s with
  | '{' :: rest => nestedLoop (rest.length + 1) rest 1
  | _ => none

/-- `re.search` of the nested-brace pattern: leftmost match (the match is
attempted at each successive start position; `matchNested []` is `none`,
so the empty-remainder case returns `none` directly). -/
def regexNestedAux : List Char → Option (List Char)
  | [] => none
  | c :: rest =>
    match matchNested (c :: rest) with
    | some n => some ((c :: rest).take n)
    | none => regexNestedAux rest

def regexNested (r : List Char) : Option (List Char) :=
  regexNestedAux r

/-- `re.search` of the greedy pattern `\x7b.*\x7d` with DOTALL: from the
first opening brace to the last closing brace, if the former precedes the
latter. -/
def regexBrace (r : List Char) : Option (List Char) :=
  match r.findIdx? (fun c => c = '{') with
  | none => none
  | some i =>
    match r.reverse.findIdx? (fun c => c = '}') with
    | none => none
    | some jr =>
      if i ≤ r.length - 1 - jr then
        some ((r.drop i).take (r.length - 1 - jr - i + 1))
      else none

/-- `_parse_json_response`: fence stripping, direct parse, then the two
regex fallbacks; `.error` is an uncaught exception escaping the method
(only `json.JSONDecodeError` is caught inside it). -/
def parse_json_response (response : List Char) :
    Except Unit RawExtraction :=
  if pyStrip response = [] then .ok emptyRawExtraction
  else
    match jsonParse (stripFences response) with
    | some v => validateJ v
    | none =>
      match regexNested (stripFences response) with
      | some m =>
        match jsonParse m with
        | some v => validateJ v
        | none =>
          match regexBrace (stripFences response) with
          | some m2 =>
            match jsonParse m2 with
            | some v => validateJ v
            | none => .ok emptyRawExtraction
          | none => .ok emptyRawExtraction
      | none => .ok emptyRawExtraction

/-- The extraction result reaching `extract_user_info`'s caller: any
exception from parsing/validation is caught and replaced by the empty
extraction. -/
def extract_user_info_result (response : List Char) : RawExtraction :=
  match parse_json_response response with
  | .ok e => e
  | .error _ => emptyRawExtraction

/-- All contiguous substrings of a string. -/
def infixes (r : List Char) : List (List Char) :=
  r.tails.flatMap List.inits

/-- Whether a string parses (as a whole document) to a JSON object. -/
def parsesAsObj (s : List Char) : Bool :=
  match jsonParse s with
  | some v => isDict v
  | none => false

theorem pyStrip_isSub (s : List Char) : pyStrip s <:+: s :=
  (List.rdropWhile_prefix isPySpace
    (s.dropWhile isPySpace)).isInfix.trans
    (List.dropWhile_suffix isPySpace).isInfix

theorem stripFences_isSub (response : List Char) :
    stripFences response <:+: response := by
  simp only [stripFences]
  have h1 : pyStrip response <:+: response := pyStrip_isSub response
  have h2 : (if ("```json").toList.isPrefixOf (pyStrip response) then
        (pyStrip response).drop 7
      else if ("```").toList.isPrefixOf (pyStrip response) then
        (pyStrip response).drop 3
      else pyStrip response) <:+: pyStrip response := by
    split
    · exact (List.drop_suffix _ _).isInfix
    · split
      · exact (List.drop_suffix _ _).isInfix
      · exact List.infix_refl _
  generalize hr2 : (if ("```json").toList.isPrefixOf (pyStrip response)
      then (pyStrip response).drop 7
      else if ("```").toList.isPrefixOf (pyStrip response) then
        (pyStrip response).drop 3
      else pyStrip response) = r2 at h2 ⊢
  have h3 : (if ("```").toList.isSuffixOf r2 then r2.take (r2.length - 3)
      else r2) <:+: r2 := by
    split
    · exact (List.take_prefix _ _).isInfix
    · exact List.infix_refl _
  generalize (if ("```").toList.isSuffixOf r2 then
      r2.take (r2.length - 3) else r2) = r3 at h3 ⊢
  exact (pyStrip_isSub r3).trans (h3.trans (h2.trans h1))

theorem regexNestedAux_isSub :
    ∀ (s m : List Char), regexNestedAux s = some m → m <:+: s := by
  intro s
  induction s with
  | nil => intro m h; exact absurd h (by simp [regexNestedAux])
  | cons c rest ih =>
    intro m h
    rw [regexNestedAux] at h
    cases hm : matchNested (c :: rest) with
    | some k =>
      simp only [hm] at h
      rw [Option.some.injEq] at h
      rw [← h]
      exact (List.take_prefix k (c :: rest)).isInfix
    | none =>
      simp only [hm] at h
      exact (ih m h).trans ⟨[c], [], by simp⟩

theorem regexNested_isSub (r m : List Char)
    (h : regexNested r = some m) : m <:+: r :=
  regexNestedAux_isSub r m h

theorem regexBrace_isSub (r m : List Char)
    (h : regexBrace r = some m) : m <:+: r := by
  unfold regexBrace at h
  split at h
  · exact absurd h (by simp)
  · split at h
    · exact absurd h (by simp)
    · split at h
      · rw [Option.some.injEq] at h
        rw [← h]
        exact ((List.take_prefix _ _).isInfix).trans
          (List.drop_suffix _ _).isInfix
      · exact absurd h (by simp)

theorem mem_infixes_iff (s r : List Char) :
    s ∈ infixes r ↔ s <:+: r := by
  unfold infixes
  rw [List.mem_flatMap]
  constructor
  · rintro ⟨t, ht, hs⟩
    rw [List.mem_tails] at ht
    rw [List.mem_inits] at hs
    exact List.infix_iff_prefix_suffix.mpr ⟨t, hs, ht⟩
  · intro h
    obtain ⟨t, hp, hsuf⟩ := List.infix_iff_prefix_suffix.mp h
    exact ⟨t, (List.mem_tails t r).mpr hsuf, (List.mem_inits s t).mpr hp⟩

theorem validateJ_error {v : JVal} (h : isDict v = false) :
    validateJ v = .error () := by
  cases v <;> simp_all [isDict, validateJ]

/-- C4: for every model-response string no contiguous substring of which
is parseable as a JSON object (in particular syntactically invalid JSON
wrapped in fenced-code markers), the extraction reaching the caller is the
empty-extraction shape (name null, list fields empty lists, mapping fields
empty mappings); `extract_user_info_result` is a total function, so no
exception escapes to the caller. -/
theorem extractor_empty_on_unparseable (response : List Char)
    (h : ∀ s ∈ infixes response, parsesAsObj s = false) :
    extract_user_info_result response = emptyRawExtraction := by
  have hinf : ∀ s : List Char, s <:+: response → parsesAsObj s = false :=
    fun s hs => h s ((mem_infixes_iff s response).mpr hs)
  have hstrip : stripFences response <:+: response :=
    stripFences_isSub response
  have hval : ∀ (s : List Char) (v : JVal), s <:+: response →
      jsonParse s = some v → validateJ v = .error () := by
    intro s v hs hv
    apply validateJ_error
    have hobj := hinf s hs
    unfold parsesAsObj at hobj
    rw [hv] at hobj
    exact hobj
  have key : parse_json_response response = .ok emptyRawExtraction ∨
      parse_json_response response = .error () := by
    unfold parse_json_response
    split
    · exact Or.inl rfl
    · cases hv : jsonParse (stripFences response) with
      | some v =>
        simp only [hv]
        exact Or.inr (hval _ v hstrip hv)
      | none =>
        simp only [hv]
        cases hm : regexNested (stripFences response) with
        | none => simp only [hm]; exact Or.inl trivial
        | some m =>
          have hmi : m <:+: response :=
            (regexNested_isSub _ m hm).trans hstrip
          simp only [hm]
          cases hv2 : jsonParse m with
          | some v =>
            simp only [hv2]
            exact Or.inr (hval _ v hmi hv2)
          | none =>
            simp only [hv2]
            cases hm2 : regexBrace (stripFences response) with
            | none => simp only [hm2]; exact Or.inl trivial
            | some m2 =>
              have hmi2 : m2 <:+: response :=
                (regexBrace_isSub _ m2 hm2).trans hstrip
              simp only [hm2]
              cases hv3 : jsonParse m2 with
              | some v =>
                simp only [hv3]
                exact Or.inr (hval _ v hmi2 hv3)
              | none => simp only [hv3]; exact Or.inl trivial
  unfold extract_user_info_result
  rcases key with hk | hk <;> rw [hk]

/-- Witness for C4: invalid JSON wrapped in fenced-code markers. -/
theorem extractor_empty_on_unparseable_witness :
    extract_user_info_result (("```json{,}```").toList) =
      emptyRawExtraction :=
  extractor_empty_on_unparseable _ (by decide)

end DesktopPet
